import Mathlib

set_option maxRecDepth 100000
set_option maxHeartbeats 2000000

/-!
Verification of the VoiceGuard forensic scoring engine (src/app.py).

The engine is the function analyze_audio_forensics: it loads a waveform,
computes an STFT magnitude matrix and per-frame RMS values with librosa, runs
three detector blocks (frequency-cutoff check, silence-pattern check,
dispersion/jitter check), accumulates integer penalty points, clamps the sum to
100 and returns the score together with an ordered evidence list.  The
module-level UI code then renders a SYNTHETIC/HUMAN verdict from the score.

Samples, magnitudes and RMS values are modelled as rationals.  The STFT
magnitude matrix and the RMS frame values are inputs of the model (they are
produced by windowed Fourier analysis and square roots, which are not rational
operations); every computation the source performs after them - per-bin energy
sums, cumulative sums, the searchsorted lower-bound lookup, the bin-to-Hz map,
the minimum RMS, the zero-crossing indicator and its variance, the penalty
tiers, the clamp and the verdict - is modelled exactly.
-/

namespace VoiceGuard

/-- Evidence lines appended by analyze_audio_forensics, in source order.  The
integer payload of the three frequency lines is the truncated cutoff frequency
that the source interpolates into the message text. -/
inductive Evidence where
  | hardCutoff (hz : ℤ)
  | suspiciousDrop (hz : ℤ)
  | fullRange (hz : ℤ)
  | digitalSilence
  | naturalNoise
  | tooSmooth
  deriving DecidableEq

/-- Two-valued verdict rendered by the module-level UI code. -/
inductive Verdict where
  | SYNTHETIC
  | HUMAN
  deriving DecidableEq

/-- librosa.stft default FFT window length (n_fft). -/
def n_fft : ℕ := 2048

/-- librosa.stft default hop length: n_fft divided by 4. -/
def hop_length : ℕ := n_fft / 4

/-- Row count of the one-sided STFT magnitude matrix: 1 + n_fft / 2. -/
def numFreqBins : ℕ := 1 + n_fft / 2

/-- librosa.fft_frequencies(sr=sr) with the default n_fft: the one-sided FFT
bin center frequencies 0, sr/n_fft, 2*sr/n_fft, ..., sr/2, i.e.
np.fft.rfftfreq(n_fft, 1/sr). -/
def fft_frequencies (sr : ℚ) : List ℚ :=
  (List.range numFreqBins).map (fun i : ℕ => (i : ℚ) * sr / (n_fft : ℚ))

/-- Running prefix sums with an explicit accumulator (helper for np.cumsum). -/
def cumsumFrom (acc : ℚ) : List ℚ → List ℚ
  | [] => []
  | x :: xs => (acc + x) :: cumsumFrom (acc + x) xs

/-- np.cumsum over a 1-D array. -/
def np_cumsum (l : List ℚ) : List ℚ := cumsumFrom 0 l

/-- Least index k with v ≤ a[k], returning a.length when no element qualifies.
On a sorted array this is exactly np.searchsorted(a, v) with the default
side=left (the source only applies searchsorted to the non-decreasing
cumulative-energy array). -/
def lowerBound (v : ℚ) : List ℚ → ℕ
  | [] => 0
  | x :: xs => if v ≤ x then 0 else lowerBound v xs + 1

/-- np.searchsorted(a, v) with the default side=left. -/
def np_searchsorted (a : List ℚ) (v : ℚ) : ℕ := lowerBound v a

/-- np.min over a 1-D array; none models the ValueError raised on an empty
array. -/
def npMin : List ℚ → Option ℚ
  | [] => none
  | x :: xs => some (xs.foldl min x)

/-- Python int() applied to a float (and numpy float-to-int conversion):
truncation toward zero. -/
def pyInt (q : ℚ) : ℤ := q.num.tdiv q.den

/-- librosa.zero_crossings default amplitude threshold 1e-10. -/
def zc_threshold : ℚ := 1e-10

/-- Sign bit of a sample after librosa zeroes every sample whose magnitude is
at most the threshold: np.signbit is true exactly on the remaining negative
values. -/
def zcSign (x : ℚ) : Bool :=
  if -zc_threshold ≤ x ∧ x ≤ zc_threshold then false
  else if x < 0 then true else false

/-- Pairwise inequality of consecutive elements: np.diff(signs) != 0. -/
def diffNe : List Bool → List Bool
  | a :: b :: rest => (a != b) :: diffNe (b :: rest)
  | _ => []

/-- librosa.zero_crossings(y, pad=False): the sign-change indicators of
consecutive samples, preceded by a single boundary element holding the pad
value False (librosa always prepends one element along the axis; pad=False
makes it False instead of True). -/
def zero_crossings (y : List ℚ) : List Bool :=
  false :: diffNe (y.map zcSign)

/-- np.var of a boolean array (booleans are promoted to 0/1 floats), which is
p - p^2 for p the fraction of true entries.  The empty case is unreachable
from zero_crossings, whose result is always nonempty. -/
def np_var_bool (l : List Bool) : ℚ :=
  if l.length = 0 then 0
  else
    let p : ℚ := (l.countP id : ℕ) / (l.length : ℚ)
    p - p ^ 2

/-- Per-bin total energy: np.sum(stft_magnitudes, axis=1), one sum per
frequency-bin row across all time frames. -/
def binEnergies (spectrum : List (List ℚ)) : List ℚ :=
  spectrum.map List.sum

/-- TEST 1 index computation: cumulative energy over increasing frequency,
total energy read off as the last cumulative element (cumulative_energy[-1],
an IndexError on an empty array), threshold index from searchsorted at 99
percent of the total, and the cutoff frequency looked up in
librosa.fft_frequencies (an IndexError when the index is out of range). -/
def cutoffFreq (spectrum : List (List ℚ)) (sr : ℚ) : Except String ℚ :=
  let cumulative_energy := np_cumsum (binEnergies spectrum)
  match cumulative_energy.getLast? with
  | none => Except.error "IndexError: index -1 is out of bounds"
  | some total_energy =>
    let threshold_idx := np_searchsorted cumulative_energy (total_energy * 0.99)
    match (fft_frequencies sr)[threshold_idx]? with
    | none => Except.error "IndexError: index out of bounds"
    | some f => Except.ok f

/-- TEST 1: the frequency-cutoff check with its three-tier penalty policy
(below 14000 Hz add 50, below 21000 Hz add 20, otherwise add 0), each tier
appending exactly one evidence line. -/
def freqCutoffCheck (spectrum : List (List ℚ)) (sr : ℚ) :
    Except String (ℕ × List Evidence) :=
  (cutoffFreq spectrum sr).map (fun cutoff_freq =>
    if cutoff_freq < 14000 then
      (50, [Evidence.hardCutoff (pyInt cutoff_freq)])
    else if cutoff_freq < 21000 then
      (20, [Evidence.suspiciousDrop (pyInt cutoff_freq)])
    else
      (0, [Evidence.fullRange (pyInt cutoff_freq)]))

/-- TEST 2: the silence-pattern check on the per-frame RMS values: minimum RMS
below 1e-6 adds 35 points, otherwise 0; one evidence line either way.  The
none branch models the ValueError np.min raises on an empty array. -/
def silenceCheck (rms : List ℚ) : Except String (ℕ × List Evidence) :=
  match npMin rms with
  | none => Except.error "ValueError: zero-size array to reduction operation"
  | some min_silence =>
    if min_silence < 0.000001 then Except.ok (35, [Evidence.digitalSilence])
    else Except.ok (0, [Evidence.naturalNoise])

/-- TEST 3: the dispersion / jitter check: variance of the zero-crossing
indicator below 0.04 adds 25 points with one evidence line, otherwise 0 points
and no evidence line. -/
def dispersionCheck (y : List ℚ) : ℕ × List Evidence :=
  let zc_variation := np_var_bool (zero_crossings y)
  if zc_variation < 0.04 then (25, [Evidence.tooSmooth]) else (0, [])

/-- The forensic engine analyze_audio_forensics of src/app.py: the three tests
run in order, their penalties accumulate into ai_score, the score is clamped
with min(ai_score, 100) and the evidence lines concatenate in execution
order. -/
def analyze_audio_forensics (y : List ℚ) (sr : ℚ) (spectrum : List (List ℚ))
    (rms : List ℚ) : Except String (ℕ × List Evidence) :=
  match freqCutoffCheck spectrum sr with
  | Except.error e => Except.error e
  | Except.ok (p1, e1) =>
    match silenceCheck rms with
    | Except.error e => Except.error e
    | Except.ok (p2, e2) =>
      Except.ok (min (p1 + p2 + (dispersionCheck y).1) 100,
        e1 ++ e2 ++ (dispersionCheck y).2)

/-- Module-level verdict rendering of src/app.py: score above 50 is SYNTHETIC
with confidence equal to the score, otherwise HUMAN with confidence
100 - score. -/
def renderVerdict (score : ℕ) : Verdict × ℕ :=
  if 50 < score then (Verdict.SYNTHETIC, score)
  else (Verdict.HUMAN, 100 - score)

/-! General lemmas about the embedded numpy / librosa primitives. -/

theorem cumsumFrom_length (acc : ℚ) (l : List ℚ) :
    (cumsumFrom acc l).length = l.length := by
  induction l generalizing acc with
  | nil => rfl
  | cons x xs ih => simp [cumsumFrom, ih]

theorem np_cumsum_length (l : List ℚ) : (np_cumsum l).length = l.length :=
  cumsumFrom_length 0 l

theorem getLast?_cons_of_some {α : Type} (a z : α) (l : List α)
    (h : l.getLast? = some z) : (a :: l).getLast? = some z := by
  cases l with
  | nil => simp at h
  | cons b t => rw [List.getLast?_cons_cons]; exact h

theorem cumsumFrom_getLast? (acc : ℚ) (l : List ℚ) (h : l ≠ []) :
    (cumsumFrom acc l).getLast? = some (acc + l.sum) := by
  induction l generalizing acc with
  | nil => simp at h
  | cons x xs ih =>
    cases xs with
    | nil => simp [cumsumFrom]
    | cons b t =>
      rw [cumsumFrom, getLast?_cons_of_some _ _ _ (ih (acc + x) (by simp))]
      simp [add_assoc]

theorem np_cumsum_getLast? (l : List ℚ) (h : l ≠ []) :
    (np_cumsum l).getLast? = some l.sum := by
  rw [np_cumsum, cumsumFrom_getLast? 0 l h, zero_add]

theorem cumsumFrom_mem_le (acc : ℚ) (l : List ℚ) (hl : ∀ x ∈ l, 0 ≤ x) :
    ∀ z ∈ cumsumFrom acc l, acc ≤ z := by
  induction l generalizing acc with
  | nil => simp [cumsumFrom]
  | cons x xs ih =>
    intro z hz
    rw [cumsumFrom] at hz
    have hx : 0 ≤ x := hl x (by simp)
    rcases List.mem_cons.mp hz with h | h
    · subst h; linarith
    · have := ih (acc + x) (fun y hy => hl y (by simp [hy])) z h
      linarith

theorem cumsumFrom_sorted (acc : ℚ) (l : List ℚ) (hl : ∀ x ∈ l, 0 ≤ x) :
    List.Sorted (· ≤ ·) (cumsumFrom acc l) := by
  induction l generalizing acc with
  | nil => simp [cumsumFrom]
  | cons x xs ih =>
    rw [cumsumFrom]
    refine List.sorted_cons.mpr ⟨?_, ih (acc + x) (fun y hy => hl y (by simp [hy]))⟩
    exact cumsumFrom_mem_le (acc + x) xs (fun y hy => hl y (by simp [hy]))

theorem np_cumsum_sorted (l : List ℚ) (hl : ∀ x ∈ l, 0 ≤ x) :
    List.Sorted (· ≤ ·) (np_cumsum l) :=
  cumsumFrom_sorted 0 l hl

theorem lowerBound_le_length (v : ℚ) (a : List ℚ) : lowerBound v a ≤ a.length := by
  induction a with
  | nil => simp [lowerBound]
  | cons x xs ih =>
    rw [lowerBound]
    split
    · simp
    · simp only [List.length_cons]; omega

theorem lowerBound_lt_length (v : ℚ) (a : List ℚ) (t : ℚ)
    (hlast : a.getLast? = some t) (hv : v ≤ t) : lowerBound v a < a.length := by
  induction a with
  | nil => simp at hlast
  | cons x xs ih =>
    by_cases hx : v ≤ x
    · simp [lowerBound, hx]
    · cases xs with
      | nil =>
        have : x = t := by simpa using hlast
        exact absurd (this ▸ hv) hx
      | cons b t2 =>
        rw [List.getLast?_cons_cons] at hlast
        have hih := ih hlast
        rw [lowerBound, if_neg hx]
        simp only [List.length_cons] at hih ⊢
        omega

theorem lowerBound_getElem? (v : ℚ) (a : List ℚ) (h : lowerBound v a < a.length) :
    ∃ c, a[lowerBound v a]? = some c ∧ v ≤ c := by
  induction a with
  | nil => simp at h
  | cons x xs ih =>
    by_cases hx : v ≤ x
    · exact ⟨x, by simp [lowerBound, hx], hx⟩
    · rw [lowerBound, if_neg hx] at h ⊢
      have h2 : lowerBound v xs < xs.length := by
        simp only [List.length_cons] at h; omega
      obtain ⟨c, hc, hvc⟩ := ih h2
      exact ⟨c, by simpa using hc, hvc⟩

theorem lowerBound_min (v : ℚ) (a : List ℚ) (j : ℕ) (c : ℚ)
    (hj : j < lowerBound v a) (hc : a[j]? = some c) : c < v := by
  induction a generalizing j with
  | nil => simp [lowerBound] at hj
  | cons x xs ih =>
    by_cases hx : v ≤ x
    · rw [lowerBound, if_pos hx] at hj; omega
    · rw [lowerBound, if_neg hx] at hj
      cases j with
      | zero =>
        have : x = c := by simpa using hc
        exact this ▸ not_le.mp hx
      | succ k => exact ih k (by omega) (by simpa using hc)

theorem cumsumFrom_replicate_zero (acc : ℚ) (n : ℕ) :
    cumsumFrom acc (List.replicate n 0) = List.replicate n acc := by
  induction n with
  | zero => rfl
  | succ m ih => simp [List.replicate_succ, cumsumFrom, ih]

theorem cumsumFrom_append (acc : ℚ) (l1 l2 : List ℚ) :
    cumsumFrom acc (l1 ++ l2) =
      cumsumFrom acc l1 ++ cumsumFrom (acc + l1.sum) l2 := by
  induction l1 generalizing acc with
  | nil => simp [cumsumFrom]
  | cons x xs ih => simp [cumsumFrom, ih, add_assoc]

theorem getLast?_replicate {α : Type} (c : α) (n : ℕ) (h : n ≠ 0) :
    (List.replicate n c).getLast? = some c := by
  induction n with
  | zero => omega
  | succ m ih =>
    cases m with
    | zero => simp
    | succ k => simpa [List.replicate_succ] using ih (by omega)

theorem lowerBound_replicate_append (v c : ℚ) (n : ℕ) (rest : List ℚ)
    (h : ¬ v ≤ c) :
    lowerBound v (List.replicate n c ++ rest) = n + lowerBound v rest := by
  induction n with
  | zero => simp
  | succ m ih =>
    rw [List.replicate_succ, List.cons_append, lowerBound, if_neg h, ih]
    omega

theorem fft_frequencies_length (sr : ℚ) :
    (fft_frequencies sr).length = numFreqBins := by
  rw [fft_frequencies, List.length_map, List.length_range]

theorem fft_frequencies_getElem? (sr : ℚ) (i : ℕ) (h : i < numFreqBins) :
    (fft_frequencies sr)[i]? = some ((i : ℚ) * sr / (n_fft : ℚ)) := by
  rw [fft_frequencies]
  simp only [List.getElem?_map, List.getElem?_range, h, if_true]
  rfl

theorem binEnergies_length (spectrum : List (List ℚ)) :
    (binEnergies spectrum).length = spectrum.length := by
  simp [binEnergies]

theorem binEnergies_nonneg (spectrum : List (List ℚ))
    (h : ∀ row ∈ spectrum, ∀ x ∈ row, 0 ≤ x) :
    ∀ e ∈ binEnergies spectrum, 0 ≤ e := by
  intro e he
  simp only [binEnergies, List.mem_map] at he
  obtain ⟨row, hrow, rfl⟩ := he
  exact List.sum_nonneg (h row hrow)

theorem foldl_min_mem (a : ℚ) (l : List ℚ) : l.foldl min a ∈ a :: l := by
  induction l generalizing a with
  | nil => simp
  | cons b t ih =>
    rw [List.foldl_cons]
    rcases List.mem_cons.mp (ih (min a b)) with h1 | h1
    · rcases min_choice a b with h2 | h2 <;> rw [h1, h2] <;> simp
    · exact List.mem_cons.mpr (Or.inr (List.mem_cons.mpr (Or.inr h1)))

theorem foldl_min_le (a : ℚ) (l : List ℚ) : ∀ x ∈ a :: l, l.foldl min a ≤ x := by
  induction l generalizing a with
  | nil =>
    intro x hx
    have hxa : x = a := by simpa using hx
    simp [hxa]
  | cons b t ih =>
    intro x hx
    rw [List.foldl_cons]
    rcases List.mem_cons.mp hx with h1 | h1
    · rw [h1]
      exact le_trans (ih (min a b) (min a b) (by simp)) (min_le_left _ _)
    · rcases List.mem_cons.mp h1 with h2 | h2
      · rw [h2]
        exact le_trans (ih (min a b) (min a b) (by simp)) (min_le_right _ _)
      · exact ih (min a b) x (by simp [h2])

theorem npMin_spec (l : List ℚ) (m : ℚ) (h : npMin l = some m) :
    m ∈ l ∧ ∀ x ∈ l, m ≤ x := by
  cases l with
  | nil => simp [npMin] at h
  | cons x xs =>
    have hm : xs.foldl min x = m := by simpa [npMin] using h
    exact hm ▸ ⟨foldl_min_mem x xs, foldl_min_le x xs⟩

theorem npMin_isSome (l : List ℚ) (h : l ≠ []) : ∃ m, npMin l = some m := by
  cases l with
  | nil => simp at h
  | cons x xs => exact ⟨xs.foldl min x, rfl⟩

/-! Case-analysis lemmas for the three tests and the aggregator. -/

theorem analyze_ok_decomp (y : List ℚ) (sr : ℚ) (spectrum : List (List ℚ))
    (rms : List ℚ) (s : ℕ) (ev : List Evidence)
    (h : analyze_audio_forensics y sr spectrum rms = Except.ok (s, ev)) :
    ∃ p1 e1 p2 e2,
      freqCutoffCheck spectrum sr = Except.ok (p1, e1) ∧
      silenceCheck rms = Except.ok (p2, e2) ∧
      s = min (p1 + p2 + (dispersionCheck y).1) 100 ∧
      ev = e1 ++ e2 ++ (dispersionCheck y).2 := by
  rw [analyze_audio_forensics] at h
  cases h1 : freqCutoffCheck spectrum sr with
  | error er => rw [h1] at h; exact absurd h (by simp)
  | ok pe1 =>
    obtain ⟨p1, e1⟩ := pe1
    rw [h1] at h
    cases h2 : silenceCheck rms with
    | error er => rw [h2] at h; exact absurd h (by simp)
    | ok pe2 =>
      obtain ⟨p2, e2⟩ := pe2
      rw [h2] at h
      simp only [Except.ok.injEq, Prod.mk.injEq] at h
      exact ⟨p1, e1, p2, e2, rfl, rfl, h.1.symm, h.2.symm⟩

theorem freqCutoffCheck_cases (spectrum : List (List ℚ)) (sr : ℚ) (p : ℕ)
    (e : List Evidence) (h : freqCutoffCheck spectrum sr = Except.ok (p, e)) :
    ∃ c, cutoffFreq spectrum sr = Except.ok c ∧ e.length = 1 ∧
      ((c < 14000 ∧ p = 50 ∧ e = [Evidence.hardCutoff (pyInt c)]) ∨
       (14000 ≤ c ∧ c < 21000 ∧ p = 20 ∧ e = [Evidence.suspiciousDrop (pyInt c)]) ∨
       (21000 ≤ c ∧ p = 0 ∧ e = [Evidence.fullRange (pyInt c)])) := by
  cases hc : cutoffFreq spectrum sr with
  | error er =>
    rw [freqCutoffCheck, hc] at h
    exact absurd h (by simp [Except.map])
  | ok c =>
    rw [freqCutoffCheck, hc] at h
    simp only [Except.map, Except.ok.injEq] at h
    rcases lt_or_le c 14000 with h1 | h1
    · rw [if_pos h1] at h
      injection h with hp he
      subst hp; subst he
      exact ⟨c, rfl, rfl, Or.inl ⟨h1, rfl, rfl⟩⟩
    · rcases lt_or_le c 21000 with h2 | h2
      · rw [if_neg (not_lt.mpr h1), if_pos h2] at h
        injection h with hp he
        subst hp; subst he
        exact ⟨c, rfl, rfl, Or.inr (Or.inl ⟨h1, h2, rfl, rfl⟩)⟩
      · rw [if_neg (not_lt.mpr h1), if_neg (not_lt.mpr h2)] at h
        injection h with hp he
        subst hp; subst he
        exact ⟨c, rfl, rfl, Or.inr (Or.inr ⟨h2, rfl, rfl⟩)⟩

theorem silenceCheck_cases (rms : List ℚ) (p : ℕ) (e : List Evidence)
    (h : silenceCheck rms = Except.ok (p, e)) :
    ∃ m, npMin rms = some m ∧ e.length = 1 ∧
      ((m < 0.000001 ∧ p = 35 ∧ e = [Evidence.digitalSilence]) ∨
       (0.000001 ≤ m ∧ p = 0 ∧ e = [Evidence.naturalNoise])) := by
  cases hm : npMin rms with
  | none =>
    rw [silenceCheck, hm] at h
    exact absurd h (by simp)
  | some m =>
    have h2 : (if m < 0.000001 then
          (Except.ok (35, [Evidence.digitalSilence]) :
            Except String (ℕ × List Evidence))
        else Except.ok (0, [Evidence.naturalNoise])) = Except.ok (p, e) := by
      rw [← h, silenceCheck, hm]
    rcases lt_or_le m 0.000001 with h1 | h1
    · rw [if_pos h1] at h2
      simp only [Except.ok.injEq] at h2
      injection h2 with hp he
      subst hp; subst he
      exact ⟨m, rfl, rfl, Or.inl ⟨h1, rfl, rfl⟩⟩
    · rw [if_neg (not_lt.mpr h1)] at h2
      simp only [Except.ok.injEq] at h2
      injection h2 with hp he
      subst hp; subst he
      exact ⟨m, rfl, rfl, Or.inr ⟨h1, rfl, rfl⟩⟩

/-! Concrete evaluations used by witnesses and counterexamples. -/

theorem pyInt_natCast (k : ℕ) : pyInt (k : ℚ) = k := by
  simp [pyInt]

theorem pyInt_zero : pyInt 0 = 0 := by
  simp [pyInt]

theorem zcSign_one : zcSign 1 = false := by
  rw [zcSign, if_neg, if_neg]
  · norm_num
  · norm_num [zc_threshold]

theorem zcSign_negOne : zcSign (-1) = true := by
  rw [zcSign, if_neg, if_pos]
  · norm_num
  · norm_num [zc_threshold]

theorem zero_crossings_nil : zero_crossings [] = [false] := by
  simp [zero_crossings, diffNe]

theorem zero_crossings_pair : zero_crossings [1, 1] = [false, false] := by
  rw [zero_crossings]
  simp [zcSign_one, diffNe]

theorem zero_crossings_alt :
    zero_crossings [1, -1, 1, -1] = [false, true, true, true] := by
  rw [zero_crossings]
  simp [zcSign_one, zcSign_negOne, diffNe]

theorem np_var_bool_single : np_var_bool [false] = 0 := by
  norm_num [np_var_bool, List.countP_cons]

theorem np_var_bool_pair : np_var_bool [false, false] = 0 := by
  norm_num [np_var_bool, List.countP_cons]

theorem np_var_bool_alt : np_var_bool [false, true, true, true] = 3 / 16 := by
  norm_num [np_var_bool, List.countP_cons]

theorem dispersionCheck_fire_pair :
    dispersionCheck [1, 1] = (25, [Evidence.tooSmooth]) := by
  rw [dispersionCheck, zero_crossings_pair, np_var_bool_pair, if_pos (by norm_num)]

theorem dispersionCheck_fire_nil :
    dispersionCheck [] = (25, [Evidence.tooSmooth]) := by
  rw [dispersionCheck, zero_crossings_nil, np_var_bool_single, if_pos (by norm_num)]

theorem dispersionCheck_pass_alt :
    dispersionCheck [1, -1, 1, -1] = (0, []) := by
  rw [dispersionCheck, zero_crossings_alt, np_var_bool_alt, if_neg (by norm_num)]

theorem silenceCheck_zero :
    silenceCheck [0] = Except.ok (35, [Evidence.digitalSilence]) := by
  rw [silenceCheck]
  norm_num [npMin]

theorem silenceCheck_one :
    silenceCheck [1] = Except.ok (0, [Evidence.naturalNoise]) := by
  rw [silenceCheck]
  norm_num [npMin]

theorem cutoffFreq_unit (n m : ℕ) (sr : ℚ) (hn : n < numFreqBins) :
    cutoffFreq (List.replicate n [0] ++ [1] :: List.replicate m [0]) sr =
      Except.ok ((n : ℚ) * sr / (n_fft : ℚ)) := by
  have hbe : binEnergies (List.replicate n [0] ++ [1] :: List.replicate m [0]) =
      List.replicate n 0 ++ 1 :: List.replicate m 0 := by
    simp [binEnergies, List.map_replicate]
  have hcum : np_cumsum (List.replicate n (0 : ℚ) ++ 1 :: List.replicate m 0) =
      List.replicate n 0 ++ 1 :: List.replicate m 1 := by
    rw [np_cumsum, cumsumFrom_append, cumsumFrom_replicate_zero]
    have hsum : (List.replicate n (0 : ℚ)).sum = 0 := by simp
    rw [hsum, cumsumFrom]
    norm_num [cumsumFrom_replicate_zero]
  have hlast : (List.replicate n (0 : ℚ) ++ 1 :: List.replicate m 1).getLast? =
      some 1 := by
    have h1 : ((1 : ℚ) :: List.replicate m 1) = List.replicate (m + 1) 1 :=
      (List.replicate_succ 1 m).symm
    rw [List.getLast?_append, h1, getLast?_replicate _ _ (by omega)]
    rfl
  have hlb : lowerBound ((1 : ℚ) * 0.99)
      (List.replicate n (0 : ℚ) ++ 1 :: List.replicate m 1) = n := by
    rw [lowerBound_replicate_append _ _ _ _ (by norm_num), lowerBound,
      if_pos (by norm_num)]
    omega
  rw [cutoffFreq, hbe]
  simp only [hcum, hlast, np_searchsorted, hlb,
    fft_frequencies_getElem? sr n hn]

theorem freqCutoffCheck_low :
    freqCutoffCheck ([1] :: List.replicate 1024 [0]) 22050 =
      Except.ok (50, [Evidence.hardCutoff 0]) := by
  have hc := cutoffFreq_unit 0 1024 22050 (by norm_num [numFreqBins, n_fft])
  simp only [List.replicate_zero, List.nil_append] at hc
  rw [freqCutoffCheck, hc]
  have h0 : ((0 : ℕ) : ℚ) * 22050 / ((n_fft : ℕ) : ℚ) = 0 := by
    norm_num
  rw [h0]
  simp only [Except.map, if_pos (by norm_num : (0 : ℚ) < 14000), pyInt_zero]

theorem freqCutoffCheck_mid :
    freqCutoffCheck (List.replicate 875 [0] ++ [1] :: List.replicate 149 [0])
      32768 = Except.ok (20, [Evidence.suspiciousDrop 14000]) := by
  have hc := cutoffFreq_unit 875 149 32768 (by norm_num [numFreqBins, n_fft])
  have h0 : ((875 : ℕ) : ℚ) * 32768 / ((n_fft : ℕ) : ℚ) = 14000 := by
    norm_num [n_fft]
  rw [h0] at hc
  rw [freqCutoffCheck, hc]
  simp only [Except.map, if_neg (by norm_num : ¬ (14000 : ℚ) < 14000),
    if_pos (by norm_num : (14000 : ℚ) < 21000)]
  rw [show ((14000 : ℚ)) = ((14000 : ℕ) : ℚ) by norm_num, pyInt_natCast]
  norm_num

theorem freqCutoffCheck_high :
    freqCutoffCheck (List.replicate 1024 [0] ++ [[1]]) 44100 =
      Except.ok (0, [Evidence.fullRange 22050]) := by
  have hc := cutoffFreq_unit 1024 0 44100 (by norm_num [numFreqBins, n_fft])
  simp only [List.replicate_zero] at hc
  have h0 : ((1024 : ℕ) : ℚ) * 44100 / ((n_fft : ℕ) : ℚ) = 22050 := by
    norm_num [n_fft]
  rw [h0] at hc
  rw [freqCutoffCheck, hc]
  simp only [Except.map, if_neg (by norm_num : ¬ (22050 : ℚ) < 14000),
    if_neg (by norm_num : ¬ (22050 : ℚ) < 21000)]
  rw [show ((22050 : ℚ)) = ((22050 : ℕ) : ℚ) by norm_num, pyInt_natCast]
  norm_num

theorem cutoffFreq_zero_spectrum (sr : ℚ) :
    cutoffFreq (List.replicate 1025 [0]) sr = Except.ok 0 := by
  have hbe : binEnergies (List.replicate 1025 ([0] : List ℚ)) =
      List.replicate 1025 0 := by
    simp [binEnergies, List.map_replicate]
  have hcum : np_cumsum (List.replicate 1025 (0 : ℚ)) =
      List.replicate 1025 0 := by
    rw [np_cumsum, cumsumFrom_replicate_zero]
  have hlast : (List.replicate 1025 (0 : ℚ)).getLast? = some 0 :=
    getLast?_replicate _ _ (by omega)
  have hlb : lowerBound (0 : ℚ) (List.replicate 1025 (0 : ℚ)) = 0 := by
    rw [show (List.replicate 1025 (0 : ℚ)) = 0 :: List.replicate 1024 0 from
      List.replicate_succ 0 1024]
    rw [lowerBound, if_pos (by norm_num)]
  have hfq := fft_frequencies_getElem? sr 0 (by norm_num [numFreqBins, n_fft])
  rw [cutoffFreq, hbe]
  simp only [hcum, hlast, np_searchsorted, hlb, hfq, Nat.cast_zero, zero_mul,
    zero_div]

theorem freqCutoffCheck_zero_spectrum (sr : ℚ) :
    freqCutoffCheck (List.replicate 1025 [0]) sr =
      Except.ok (50, [Evidence.hardCutoff 0]) := by
  rw [freqCutoffCheck, cutoffFreq_zero_spectrum]
  simp only [Except.map, if_pos (by norm_num : (0 : ℚ) < 14000), pyInt_zero]

theorem dispersionCheck_cases (y : List ℚ) :
    (np_var_bool (zero_crossings y) < 0.04 ∧
      dispersionCheck y = (25, [Evidence.tooSmooth])) ∨
    (0.04 ≤ np_var_bool (zero_crossings y) ∧ dispersionCheck y = (0, [])) := by
  by_cases h : np_var_bool (zero_crossings y) < 0.04
  · exact Or.inl ⟨h, by simp [dispersionCheck, h]⟩
  · exact Or.inr ⟨not_lt.mp h, by simp [dispersionCheck, h]⟩

/-! End-to-end evaluations of the pipeline at concrete inputs. -/

theorem analyze_allfire :
    analyze_audio_forensics [1, 1] 22050 ([1] :: List.replicate 1024 [0]) [0] =
      Except.ok (100, [Evidence.hardCutoff 0, Evidence.digitalSilence,
        Evidence.tooSmooth]) := by
  rw [analyze_audio_forensics, freqCutoffCheck_low, silenceCheck_zero,
    dispersionCheck_fire_pair]
  rfl

theorem analyze_empty (sr : ℚ) :
    analyze_audio_forensics [] sr (List.replicate 1025 [0]) [0] =
      Except.ok (100, [Evidence.hardCutoff 0, Evidence.digitalSilence,
        Evidence.tooSmooth]) := by
  rw [analyze_audio_forensics, freqCutoffCheck_zero_spectrum, silenceCheck_zero,
    dispersionCheck_fire_nil]
  rfl

theorem analyze_midfire :
    analyze_audio_forensics [1, 1] 32768
        (List.replicate 875 [0] ++ [1] :: List.replicate 149 [0]) [1] =
      Except.ok (45, [Evidence.suspiciousDrop 14000, Evidence.naturalNoise,
        Evidence.tooSmooth]) := by
  rw [analyze_audio_forensics, freqCutoffCheck_mid, silenceCheck_one,
    dispersionCheck_fire_pair]
  rfl

theorem analyze_clean :
    analyze_audio_forensics [1, -1, 1, -1] 44100
        (List.replicate 1024 [0] ++ [[1]]) [1] =
      Except.ok (0, [Evidence.fullRange 22050, Evidence.naturalNoise]) := by
  rw [analyze_audio_forensics, freqCutoffCheck_high, silenceCheck_one,
    dispersionCheck_pass_alt]
  rfl

theorem analyze_hard_pass :
    analyze_audio_forensics [1, -1, 1, -1] 22050
        ([1] :: List.replicate 1024 [0]) [1] =
      Except.ok (50, [Evidence.hardCutoff 0, Evidence.naturalNoise]) := by
  rw [analyze_audio_forensics, freqCutoffCheck_low, silenceCheck_one,
    dispersionCheck_pass_alt]
  rfl

/-! Claim theorems. -/

/-- C1: for every run of analyze_audio_forensics that returns, the score is a
natural number at most 100; it is the clamp min(p1 + p2 + p3, 100) of the three
test penalties, so the running score p1, p1 + p2, p1 + p2 + p3 is monotonically
non-decreasing as each test adds its non-negative penalty. -/
theorem C1_score_bounded (y : List ℚ) (sr : ℚ) (spectrum : List (List ℚ))
    (rms : List ℚ) (s : ℕ) (ev : List Evidence)
    (h : analyze_audio_forensics y sr spectrum rms = Except.ok (s, ev)) :
    s ≤ 100 ∧
    ∃ p1 e1 p2 e2,
      freqCutoffCheck spectrum sr = Except.ok (p1, e1) ∧
      silenceCheck rms = Except.ok (p2, e2) ∧
      s = min (p1 + p2 + (dispersionCheck y).1) 100 ∧
      p1 ≤ p1 + p2 ∧ p1 + p2 ≤ p1 + p2 + (dispersionCheck y).1 := by
  obtain ⟨p1, e1, p2, e2, h1, h2, hs, hev⟩ :=
    analyze_ok_decomp y sr spectrum rms s ev h
  exact ⟨hs ▸ min_le_right _ _,
    p1, e1, p2, e2, h1, h2, hs, Nat.le_add_right _ _, Nat.le_add_right _ _⟩

/-- C1 witness: a concrete run in which all three detectors fire
(50 + 35 + 25 = 110) returns exactly the clamped score 100 ≤ 100. -/
theorem C1_score_bounded_witness :
    analyze_audio_forensics [1, 1] 22050 ([1] :: List.replicate 1024 [0]) [0] =
      Except.ok (100, [Evidence.hardCutoff 0, Evidence.digitalSilence,
        Evidence.tooSmooth]) ∧ (100 : ℕ) ≤ 100 :=
  ⟨analyze_allfire,
    (C1_score_bounded [1, 1] 22050 ([1] :: List.replicate 1024 [0]) [0] 100
      [Evidence.hardCutoff 0, Evidence.digitalSilence, Evidence.tooSmooth]
      analyze_allfire).1⟩

/-- C2: the module-level verdict rendering maps a score above 50 to SYNTHETIC
with confidence equal to the score, and a score at most 50 to HUMAN with
confidence 100 - score; in particular 50 resolves to HUMAN and 51 to
SYNTHETIC. -/
theorem C2_verdict_boundary :
    (∀ s : ℕ, 50 < s → renderVerdict s = (Verdict.SYNTHETIC, s)) ∧
    (∀ s : ℕ, s ≤ 50 → renderVerdict s = (Verdict.HUMAN, 100 - s)) ∧
    renderVerdict 50 = (Verdict.HUMAN, 50) ∧
    renderVerdict 51 = (Verdict.SYNTHETIC, 51) := by
  refine ⟨fun s hs => by rw [renderVerdict, if_pos hs],
    fun s hs => by rw [renderVerdict, if_neg (by omega)], ?_, ?_⟩
  · rw [renderVerdict, if_neg (by omega)]
  · rw [renderVerdict, if_pos (by omega)]

/-- C2 witness: the boundary instances 51 and 50 obtained from the theorem. -/
theorem C2_verdict_boundary_witness :
    renderVerdict 51 = (Verdict.SYNTHETIC, 51) ∧
    renderVerdict 50 = (Verdict.HUMAN, 100 - 50) :=
  ⟨C2_verdict_boundary.1 51 (by omega), C2_verdict_boundary.2.1 50 (by omega)⟩

/-- Conclusion of claim C5: the silence-floor detector takes the minimum RMS
over all frames and adds 35 points with the digital-silence evidence line when
it is below 1e-6, else 0 points with the natural-noise line, appending exactly
one line either way. -/
def SilenceFloorSpec (rms : List ℚ) : Prop :=
  ∃ m, npMin rms = some m ∧ m ∈ rms ∧ (∀ x ∈ rms, m ≤ x) ∧
    ((m < 0.000001 ∧
        silenceCheck rms = Except.ok (35, [Evidence.digitalSilence])) ∨
     (0.000001 ≤ m ∧
        silenceCheck rms = Except.ok (0, [Evidence.naturalNoise])))

/-- C5: for every nonempty RMS frame list the silence-floor detector behaves as
SilenceFloorSpec states. -/
theorem C5_silence_floor (rms : List ℚ) (hne : rms ≠ []) :
    SilenceFloorSpec rms := by
  obtain ⟨m, hm⟩ := npMin_isSome rms hne
  obtain ⟨hmem, hle⟩ := npMin_spec rms m hm
  refine ⟨m, hm, hmem, hle, ?_⟩
  rcases lt_or_le m 0.000001 with h1 | h1
  · exact Or.inl ⟨h1, by simp only [silenceCheck, hm, if_pos h1]⟩
  · exact Or.inr ⟨h1, by simp only [silenceCheck, hm, if_neg (not_lt.mpr h1)]⟩

/-- C5 witness: the single zero RMS frame of a digitally silent file. -/
theorem C5_silence_floor_witness : SilenceFloorSpec [0] :=
  C5_silence_floor [0] (by simp)

/-- C8: the engine is deterministic and idempotent: two runs on identical
waveform, sampling rate, spectrum and RMS inputs return identical results, and
hence identical rendered verdicts. -/
theorem C8_deterministic (y1 y2 : List ℚ) (sr1 sr2 : ℚ)
    (sp1 sp2 : List (List ℚ)) (r1 r2 : List ℚ)
    (hy : y1 = y2) (hsr : sr1 = sr2) (hsp : sp1 = sp2) (hr : r1 = r2) :
    analyze_audio_forensics y1 sr1 sp1 r1 =
      analyze_audio_forensics y2 sr2 sp2 r2 ∧
    Except.map (fun pr : ℕ × List Evidence => renderVerdict pr.1)
        (analyze_audio_forensics y1 sr1 sp1 r1) =
      Except.map (fun pr : ℕ × List Evidence => renderVerdict pr.1)
        (analyze_audio_forensics y2 sr2 sp2 r2) := by
  subst hy; subst hsr; subst hsp; subst hr
  exact ⟨rfl, rfl⟩

/-- C8 witness: two runs on one concrete input agree. -/
theorem C8_deterministic_witness :
    analyze_audio_forensics [] 1 [] [] = analyze_audio_forensics [] 1 [] [] ∧
    Except.map (fun pr : ℕ × List Evidence => renderVerdict pr.1)
        (analyze_audio_forensics [] 1 [] []) =
      Except.map (fun pr : ℕ × List Evidence => renderVerdict pr.1)
        (analyze_audio_forensics [] 1 [] []) :=
  C8_deterministic [] [] 1 1 [] [] [] [] rfl rfl rfl rfl

/-- C9: the spectral transform constants are the librosa defaults, window
n_fft = 2048 with hop 512, the one-sided spectrum has 1025 bins, and the
bin-to-Hz map satisfies bin_freq(i) = i * sr / (2 * (num_bins - 1)) for every
bin index. -/
theorem C9_bin_freq_mapping :
    n_fft = 2048 ∧ hop_length = 512 ∧ numFreqBins = 1025 ∧
    ∀ sr : ℚ, (fft_frequencies sr).length = numFreqBins ∧
      ∀ i : ℕ, i < numFreqBins →
        (fft_frequencies sr)[i]? =
          some ((i : ℚ) * sr / (2 * ((numFreqBins : ℚ) - 1))) := by
  refine ⟨rfl, by decide, by decide,
    fun sr => ⟨fft_frequencies_length sr, fun i hi => ?_⟩⟩
  rw [fft_frequencies_getElem? sr i hi]
  norm_num [numFreqBins, n_fft]

/-- C9 witness: bin 1024 of a 44100 Hz spectrum maps to the Nyquist frequency
via the stated formula. -/
theorem C9_bin_freq_mapping_witness :
    (1024 : ℕ) < numFreqBins ∧
    (fft_frequencies 44100)[1024]? =
      some ((1024 : ℚ) * 44100 / (2 * ((numFreqBins : ℚ) - 1))) :=
  ⟨by decide, (C9_bin_freq_mapping.2.2.2 44100).2 1024 (by decide)⟩

/-- Under the STFT invariants (1025 frequency rows, non-negative magnitudes)
the cutoff computation is total: the cumulative array ends in the grand sum,
the 99 percent threshold is at most the total, the searchsorted index stays
below the 1025-entry frequency array, and cutoffFreq returns the frequency of
that index. -/
theorem cutoffFreq_ok_valid (spectrum : List (List ℚ)) (sr : ℚ)
    (hlen : spectrum.length = numFreqBins)
    (hpos : ∀ row ∈ spectrum, ∀ x ∈ row, 0 ≤ x) :
    (np_cumsum (binEnergies spectrum)).getLast? =
      some (binEnergies spectrum).sum ∧
    (binEnergies spectrum).sum * 0.99 ≤ (binEnergies spectrum).sum ∧
    lowerBound ((binEnergies spectrum).sum * 0.99)
      (np_cumsum (binEnergies spectrum)) < numFreqBins ∧
    cutoffFreq spectrum sr = Except.ok
      (((lowerBound ((binEnergies spectrum).sum * 0.99)
        (np_cumsum (binEnergies spectrum)) : ℕ) : ℚ) * sr / (n_fft : ℚ)) := by
  have hEnn := binEnergies_nonneg spectrum hpos
  have hne : binEnergies spectrum ≠ [] := by
    intro hnil
    have hL := binEnergies_length spectrum
    rw [hnil, hlen] at hL
    simp [numFreqBins, n_fft] at hL
  have htot := np_cumsum_getLast? _ hne
  have hsnn : 0 ≤ (binEnergies spectrum).sum := List.sum_nonneg hEnn
  have hv : (binEnergies spectrum).sum * 0.99 ≤ (binEnergies spectrum).sum := by
    nlinarith
  have hklt := lowerBound_lt_length _ _ _ htot hv
  have hkb : lowerBound ((binEnergies spectrum).sum * 0.99)
      (np_cumsum (binEnergies spectrum)) < numFreqBins := by
    rwa [np_cumsum_length, binEnergies_length, hlen] at hklt
  refine ⟨htot, hv, hkb, ?_⟩
  rw [cutoffFreq]
  simp only [htot, np_searchsorted, fft_frequencies_getElem? sr _ hkb]

/-- Conclusion of claim C3: the cutoff index is the least index at which the
non-decreasing cumulative energy reaches 99 percent of the total, the cutoff
frequency is the frequency of that bin, and exactly one of the three mutually
exclusive and exhaustive penalty tiers applies, appending exactly one evidence
line. -/
def CutoffSelectionSpec (spectrum : List (List ℚ)) (sr : ℚ) : Prop :=
  ∃ total k cutoff ck p e,
    (np_cumsum (binEnergies spectrum)).getLast? = some total ∧
    total = (binEnergies spectrum).sum ∧
    List.Sorted (· ≤ ·) (np_cumsum (binEnergies spectrum)) ∧
    k = np_searchsorted (np_cumsum (binEnergies spectrum)) (total * 0.99) ∧
    k < (np_cumsum (binEnergies spectrum)).length ∧
    (np_cumsum (binEnergies spectrum))[k]? = some ck ∧
    total * 0.99 ≤ ck ∧
    (∀ j cj, j < k → (np_cumsum (binEnergies spectrum))[j]? = some cj →
      cj < total * 0.99) ∧
    (fft_frequencies sr)[k]? = some cutoff ∧
    cutoffFreq spectrum sr = Except.ok cutoff ∧
    freqCutoffCheck spectrum sr = Except.ok (p, e) ∧
    e.length = 1 ∧
    ((cutoff < 14000 ∧ p = 50 ∧ e = [Evidence.hardCutoff (pyInt cutoff)]) ∨
     (14000 ≤ cutoff ∧ cutoff < 21000 ∧ p = 20 ∧
        e = [Evidence.suspiciousDrop (pyInt cutoff)]) ∨
     (21000 ≤ cutoff ∧ p = 0 ∧ e = [Evidence.fullRange (pyInt cutoff)]))

/-- C3: for every spectrum with the STFT shape (1025 rows) and non-negative
magnitudes, the frequency-cutoff detector satisfies CutoffSelectionSpec. -/
theorem C3_frequency_cutoff_selection (spectrum : List (List ℚ)) (sr : ℚ)
    (hlen : spectrum.length = numFreqBins)
    (hpos : ∀ row ∈ spectrum, ∀ x ∈ row, 0 ≤ x) :
    CutoffSelectionSpec spectrum sr := by
  obtain ⟨htot, hv, hkb, hcf⟩ := cutoffFreq_ok_valid spectrum sr hlen hpos
  have hEnn := binEnergies_nonneg spectrum hpos
  have hsorted := np_cumsum_sorted _ hEnn
  have hklt : lowerBound ((binEnergies spectrum).sum * 0.99)
      (np_cumsum (binEnergies spectrum)) <
      (np_cumsum (binEnergies spectrum)).length := by
    rw [np_cumsum_length, binEnergies_length, hlen]
    exact hkb
  obtain ⟨ck, hck, hvck⟩ := lowerBound_getElem? _ _ hklt
  have hpe : ∃ p e, freqCutoffCheck spectrum sr = Except.ok (p, e) := by
    rw [freqCutoffCheck, hcf]
    exact ⟨_, _, rfl⟩
  obtain ⟨p, e, hpe⟩ := hpe
  obtain ⟨c, hc, hl, hcase⟩ := freqCutoffCheck_cases spectrum sr p e hpe
  have hcv : c = ((lowerBound ((binEnergies spectrum).sum * 0.99)
      (np_cumsum (binEnergies spectrum)) : ℕ) : ℚ) * sr / (n_fft : ℚ) := by
    have h2 := hc.symm.trans hcf
    simpa using h2
  exact ⟨(binEnergies spectrum).sum,
    lowerBound ((binEnergies spectrum).sum * 0.99)
      (np_cumsum (binEnergies spectrum)), c, ck, p, e,
    htot, rfl, hsorted, rfl, hklt, hck, hvck,
    fun j cj hj hcj => lowerBound_min _ _ j cj hj hcj,
    by rw [hcv]; exact fft_frequencies_getElem? sr _ hkb,
    hc, hpe, hl, hcase⟩

/-- C3 witness: a 1025-row spectrum with all energy in bin 875 at 32768 Hz,
whose cutoff lands in the 20-point tier. -/
theorem C3_frequency_cutoff_selection_witness :
    CutoffSelectionSpec
      (List.replicate 875 [0] ++ [1] :: List.replicate 149 [0]) 32768 :=
  C3_frequency_cutoff_selection _ 32768 (by norm_num [numFreqBins, n_fft])
    (by
      intro row hrow x hx
      rcases List.mem_append.mp hrow with h | h
      · rw [List.eq_of_mem_replicate h] at hx
        have hx0 : x = 0 := by simpa using hx
        simp [hx0]
      · rcases List.mem_cons.mp h with h2 | h2
        · rw [h2] at hx
          have hx1 : x = 1 := by simpa using hx
          simp [hx1]
        · rw [List.eq_of_mem_replicate h2] at hx
          have hx0 : x = 0 := by simpa using hx
          simp [hx0])

/-- Conclusion of claim C4: the cutoff search is total (no IndexError), the
frequency array has the same length as the per-bin energy array, the cumulative
array ends in the total which bounds its own 99 percent, the searchsorted
index is a valid frequency index, and in the zero-total-energy case the
cutoff is 0 and the 50-point branch is taken. -/
def CutoffTotalSpec (spectrum : List (List ℚ)) (sr : ℚ) : Prop :=
  (∃ c, cutoffFreq spectrum sr = Except.ok c) ∧
  (fft_frequencies sr).length = (binEnergies spectrum).length ∧
  (np_cumsum (binEnergies spectrum)).getLast? =
    some (binEnergies spectrum).sum ∧
  (binEnergies spectrum).sum * 0.99 ≤ (binEnergies spectrum).sum ∧
  np_searchsorted (np_cumsum (binEnergies spectrum))
      ((binEnergies spectrum).sum * 0.99) < (fft_frequencies sr).length ∧
  ((binEnergies spectrum).sum = 0 →
    cutoffFreq spectrum sr = Except.ok 0 ∧
    freqCutoffCheck spectrum sr = Except.ok (50, [Evidence.hardCutoff 0]))

/-- C4: for every spectrum with the STFT shape and non-negative magnitudes the
cutoff search is total, and a silent (zero-total-energy) input yields cutoff 0
and the 50-point penalty branch. -/
theorem C4_cutoff_total (spectrum : List (List ℚ)) (sr : ℚ)
    (hlen : spectrum.length = numFreqBins)
    (hpos : ∀ row ∈ spectrum, ∀ x ∈ row, 0 ≤ x) :
    CutoffTotalSpec spectrum sr := by
  obtain ⟨htot, hv, hkb, hcf⟩ := cutoffFreq_ok_valid spectrum sr hlen hpos
  have hlenf : (fft_frequencies sr).length = (binEnergies spectrum).length := by
    rw [fft_frequencies_length, binEnergies_length, hlen]
  refine ⟨⟨_, hcf⟩, hlenf, htot, hv, ?_, ?_⟩
  · rw [fft_frequencies_length]
    exact hkb
  · intro hz
    have hEnn := binEnergies_nonneg spectrum hpos
    have hne : binEnergies spectrum ≠ [] := by
      intro hnil
      have hL := binEnergies_length spectrum
      rw [hnil, hlen] at hL
      simp [numFreqBins, n_fft] at hL
    obtain ⟨e0, rest, hE⟩ : ∃ e0 rest, binEnergies spectrum = e0 :: rest := by
      cases hEl : binEnergies spectrum with
      | nil => exact absurd hEl hne
      | cons a l => exact ⟨a, l, rfl⟩
    have he0 : 0 ≤ e0 := hEnn e0 (by rw [hE]; simp)
    have hlb : lowerBound ((binEnergies spectrum).sum * 0.99)
        (np_cumsum (binEnergies spectrum)) = 0 := by
      rw [hz, hE, np_cumsum, cumsumFrom, lowerBound,
        if_pos (by nlinarith : (0 : ℚ) * 0.99 ≤ 0 + e0)]
    have hc0 : cutoffFreq spectrum sr = Except.ok 0 := by
      rw [hcf, hlb]
      simp
    refine ⟨hc0, ?_⟩
    rw [freqCutoffCheck, hc0]
    simp only [Except.map, if_pos (by norm_num : (0 : ℚ) < 14000), pyInt_zero]

/-- C4 witness: the all-zero 1025-row spectrum of a silent file. -/
theorem C4_cutoff_total_witness : CutoffTotalSpec (List.replicate 1025 [0]) 22050 :=
  C4_cutoff_total _ _ (by norm_num [numFreqBins, n_fft])
    (by
      intro row hrow x hx
      rw [List.eq_of_mem_replicate hrow] at hx
      have hx0 : x = 0 := by simpa using hx
      simp [hx0])

/-- Conclusion of claim C6: the dispersion detector is the variance test on
the zero-crossing indicator of the raw waveform, the evidence list is in
execution order with one frequency line first and one silence line second, and
it has length 3 exactly when the dispersion penalty fires and length 2
otherwise. -/
def DispersionSpec (y : List ℚ) (sr : ℚ) (spectrum : List (List ℚ))
    (rms : List ℚ) (s : ℕ) (ev : List Evidence) : Prop :=
  dispersionCheck y =
    (if np_var_bool (zero_crossings y) < 0.04 then (25, [Evidence.tooSmooth])
      else (0, [])) ∧
  ∃ p1 e1 p2 e2,
    freqCutoffCheck spectrum sr = Except.ok (p1, [e1]) ∧
    silenceCheck rms = Except.ok (p2, [e2]) ∧
    (∃ z, e1 = Evidence.hardCutoff z ∨ e1 = Evidence.suspiciousDrop z ∨
      e1 = Evidence.fullRange z) ∧
    (e2 = Evidence.digitalSilence ∨ e2 = Evidence.naturalNoise) ∧
    ev = e1 :: e2 :: (dispersionCheck y).2 ∧
    s = min (p1 + p2 + (dispersionCheck y).1) 100 ∧
    (np_var_bool (zero_crossings y) < 0.04 →
      ev = [e1, e2, Evidence.tooSmooth] ∧ ev.length = 3 ∧
      s = min (p1 + p2 + 25) 100) ∧
    (0.04 ≤ np_var_bool (zero_crossings y) →
      ev = [e1, e2] ∧ ev.length = 2 ∧ s = min (p1 + p2) 100)

/-- C6: every successful run satisfies DispersionSpec. -/
theorem C6_dispersion_evidence (y : List ℚ) (sr : ℚ)
    (spectrum : List (List ℚ)) (rms : List ℚ) (s : ℕ) (ev : List Evidence)
    (h : analyze_audio_forensics y sr spectrum rms = Except.ok (s, ev)) :
    DispersionSpec y sr spectrum rms s ev := by
  obtain ⟨p1, e1l, p2, e2l, h1, h2, hs, hev⟩ :=
    analyze_ok_decomp y sr spectrum rms s ev h
  obtain ⟨c, hc, hl1, hcase1⟩ := freqCutoffCheck_cases spectrum sr p1 e1l h1
  obtain ⟨m, hm, hl2, hcase2⟩ := silenceCheck_cases rms p2 e2l h2
  have he1 : ∃ e1, e1l = [e1] ∧ ∃ z, (e1 = Evidence.hardCutoff z ∨
      e1 = Evidence.suspiciousDrop z ∨ e1 = Evidence.fullRange z) := by
    rcases hcase1 with ⟨_, _, he⟩ | ⟨_, _, _, he⟩ | ⟨_, _, he⟩
    · exact ⟨_, he, pyInt c, Or.inl rfl⟩
    · exact ⟨_, he, pyInt c, Or.inr (Or.inl rfl)⟩
    · exact ⟨_, he, pyInt c, Or.inr (Or.inr rfl)⟩
  obtain ⟨e1, he1l, hz1⟩ := he1
  have he2 : ∃ e2, e2l = [e2] ∧ (e2 = Evidence.digitalSilence ∨
      e2 = Evidence.naturalNoise) := by
    rcases hcase2 with ⟨_, _, he⟩ | ⟨_, _, he⟩
    · exact ⟨_, he, Or.inl rfl⟩
    · exact ⟨_, he, Or.inr rfl⟩
  obtain ⟨e2, he2l, hz2⟩ := he2
  subst he1l
  subst he2l
  refine ⟨rfl, p1, e1, p2, e2, h1, h2, hz1, hz2, by simpa using hev, hs,
    ?_, ?_⟩
  · intro hvar
    have hd : dispersionCheck y = (25, [Evidence.tooSmooth]) := by
      rcases dispersionCheck_cases y with ⟨_, hd⟩ | ⟨hge, _⟩
      · exact hd
      · linarith
    refine ⟨?_, ?_, ?_⟩
    · rw [hev, hd]
      rfl
    · rw [hev, hd]
      rfl
    · rw [hs, hd]
  · intro hvar
    have hd : dispersionCheck y = (0, []) := by
      rcases dispersionCheck_cases y with ⟨hlt, _⟩ | ⟨_, hd⟩
      · linarith
      · exact hd
    refine ⟨?_, ?_, ?_⟩
    · rw [hev, hd]
      rfl
    · rw [hev, hd]
      rfl
    · rw [hs, hd]
      rfl

/-- C6 witness: a periodic jittery waveform on a passing run: two evidence
lines, in execution order. -/
theorem C6_dispersion_evidence_witness :
    DispersionSpec [1, -1, 1, -1] 22050 ([1] :: List.replicate 1024 [0]) [1]
      50 [Evidence.hardCutoff 0, Evidence.naturalNoise] :=
  C6_dispersion_evidence [1, -1, 1, -1] 22050 ([1] :: List.replicate 1024 [0])
    [1] 50 [Evidence.hardCutoff 0, Evidence.naturalNoise] analyze_hard_pass

/-- C7 counterexample: on a zero-length waveform (with the all-zero spectral
features librosa derives for it) the analysis does not abort with an
EmptyAudioError before the detectors run; it returns a full result in which
all three detectors executed and fired, score 100 with three evidence lines. -/
theorem C7_counterexample :
    analyze_audio_forensics [] 22050 (List.replicate 1025 [0]) [0] =
      Except.ok (100, [Evidence.hardCutoff 0, Evidence.digitalSilence,
        Evidence.tooSmooth]) ∧
    (analyze_audio_forensics [] 22050 (List.replicate 1025 [0]) [0]).isOk =
      true := by
  refine ⟨analyze_empty 22050, ?_⟩
  rw [analyze_empty 22050]
  rfl

/-- C7 amended: the code contains no empty-input rejection: at every sampling
rate, a zero-length waveform flows through all three detectors (zero total
energy takes the 50-point cutoff branch, zero minimum RMS the 35-point silence
branch, zero crossing variance the 25-point dispersion branch) and the
analysis returns score 100 with three evidence lines instead of aborting. -/
theorem C7_empty_flows_through (sr : ℚ) :
    analyze_audio_forensics [] sr (List.replicate 1025 [0]) [0] =
      Except.ok (100, [Evidence.hardCutoff 0, Evidence.digitalSilence,
        Evidence.tooSmooth]) ∧
    freqCutoffCheck (List.replicate 1025 [0]) sr =
      Except.ok (50, [Evidence.hardCutoff 0]) ∧
    silenceCheck [0] = Except.ok (35, [Evidence.digitalSilence]) ∧
    dispersionCheck [] = (25, [Evidence.tooSmooth]) :=
  ⟨analyze_empty sr, freqCutoffCheck_zero_spectrum sr, silenceCheck_zero,
    dispersionCheck_fire_nil⟩

/-- C7 amended witness: the amended statement at the concrete rate 48000. -/
theorem C7_empty_flows_through_witness :
    analyze_audio_forensics [] 48000 (List.replicate 1025 [0]) [0] =
      Except.ok (100, [Evidence.hardCutoff 0, Evidence.digitalSilence,
        Evidence.tooSmooth]) ∧
    freqCutoffCheck (List.replicate 1025 [0]) 48000 =
      Except.ok (50, [Evidence.hardCutoff 0]) ∧
    silenceCheck [0] = Except.ok (35, [Evidence.digitalSilence]) ∧
    dispersionCheck [] = (25, [Evidence.tooSmooth]) :=
  C7_empty_flows_through 48000

/-- Number of detectors that added a nonzero penalty. -/
def penaltyCount (p1 p2 p3 : ℕ) : ℕ :=
  (if 0 < p1 then 1 else 0) + (if 0 < p2 then 1 else 0) +
    (if 0 < p3 then 1 else 0)

/-- C10 counterexample: with the 20-point frequency tier and the 25-point
dispersion penalty, two detectors add a penalty yet the score is 45, not above
50, refuting that score > 50 holds whenever at least two detectors added a
penalty. -/
theorem C10_counterexample :
    analyze_audio_forensics [1, 1] 32768
        (List.replicate 875 [0] ++ [1] :: List.replicate 149 [0]) [1] =
      Except.ok (45, [Evidence.suspiciousDrop 14000, Evidence.naturalNoise,
        Evidence.tooSmooth]) ∧
    freqCutoffCheck (List.replicate 875 [0] ++ [1] :: List.replicate 149 [0])
        32768 = Except.ok (20, [Evidence.suspiciousDrop 14000]) ∧
    dispersionCheck [1, 1] = (25, [Evidence.tooSmooth]) ∧
    penaltyCount 20 0 25 = 2 ∧ ¬ 50 < 45 :=
  ⟨analyze_midfire, freqCutoffCheck_mid, dispersionCheck_fire_pair,
    by decide, by omega⟩

/-- C10 amended: every returned score lies in the 12-element set
{0, 20, 25, 35, 45, 50, 55, 60, 75, 80, 85, 100}, and score > 50 holds iff at
least two detectors added a penalty and the penalties are not exactly the
20-point tier together with the 25-point dispersion (whose sum 45 stays at or
below 50). -/
theorem C10_amended (y : List ℚ) (sr : ℚ) (spectrum : List (List ℚ))
    (rms : List ℚ) (s : ℕ) (ev : List Evidence)
    (h : analyze_audio_forensics y sr spectrum rms = Except.ok (s, ev)) :
    s ∈ ({0, 20, 25, 35, 45, 50, 55, 60, 75, 80, 85, 100} : Finset ℕ) ∧
    ∃ p1 e1 p2 e2,
      freqCutoffCheck spectrum sr = Except.ok (p1, e1) ∧
      silenceCheck rms = Except.ok (p2, e2) ∧
      s = min (p1 + p2 + (dispersionCheck y).1) 100 ∧
      (50 < s ↔ 2 ≤ penaltyCount p1 p2 (dispersionCheck y).1 ∧
        ¬ (p1 = 20 ∧ p2 = 0 ∧ (dispersionCheck y).1 = 25)) := by
  obtain ⟨p1, e1, p2, e2, h1, h2, hs, hev⟩ :=
    analyze_ok_decomp y sr spectrum rms s ev h
  obtain ⟨c, hc, hl1, hcase1⟩ := freqCutoffCheck_cases spectrum sr p1 e1 h1
  obtain ⟨m, hm, hl2, hcase2⟩ := silenceCheck_cases rms p2 e2 h2
  have hp1 : p1 = 50 ∨ p1 = 20 ∨ p1 = 0 := by
    rcases hcase1 with ⟨_, hp, _⟩ | ⟨_, _, hp, _⟩ | ⟨_, hp, _⟩ <;> simp [hp]
  have hp2 : p2 = 35 ∨ p2 = 0 := by
    rcases hcase2 with ⟨_, hp, _⟩ | ⟨_, hp, _⟩ <;> simp [hp]
  have hp3 : (dispersionCheck y).1 = 25 ∨ (dispersionCheck y).1 = 0 := by
    rcases dispersionCheck_cases y with ⟨_, hd⟩ | ⟨_, hd⟩ <;> simp [hd]
  constructor
  · subst hs
    rcases hp1 with h1' | h1' | h1' <;> rcases hp2 with h2' | h2' <;>
      rcases hp3 with h3' | h3' <;> rw [h1', h2', h3'] <;> decide
  · refine ⟨p1, e1, p2, e2, h1, h2, hs, ?_⟩
    subst hs
    rcases hp1 with h1' | h1' | h1' <;> rcases hp2 with h2' | h2' <;>
      rcases hp3 with h3' | h3' <;> rw [h1', h2', h3'] <;>
      simp [penaltyCount]

/-- C10 amended witness: a fully passing run has score 0, which lies in the
score set. -/
theorem C10_amended_witness :
    analyze_audio_forensics [1, -1, 1, -1] 44100
        (List.replicate 1024 [0] ++ [[1]]) [1] =
      Except.ok (0, [Evidence.fullRange 22050, Evidence.naturalNoise]) ∧
    (0 : ℕ) ∈ ({0, 20, 25, 35, 45, 50, 55, 60, 75, 80, 85, 100} : Finset ℕ) :=
  ⟨analyze_clean,
    (C10_amended [1, -1, 1, -1] 44100 (List.replicate 1024 [0] ++ [[1]]) [1] 0
      [Evidence.fullRange 22050, Evidence.naturalNoise] analyze_clean).1⟩

end VoiceGuard
